import Mathlib

/-!
Verification of the obiex-api-node client core against its design spec.

The development shallowly embeds the two components with design content —
the HMAC-SHA256 request signer and the TTL cache — together with the
endpoint lookups the claims mention.  Machine words are `Nat` with explicit
`% 2^32` where 32-bit overflow matters; byte strings are `List Nat` with
every entry `< 256`; fallible JavaScript code is `Except`.
-/

/-! ### Bytes, hex, UTF-8, decimal strings -/

/-- UTF-8 encoding of a single code point (as performed by node's
`hmac.update(string)` and by `encodeURIComponent` on non-ASCII input). -/
def utf8Bytes (c : Char) : List Nat :=
  let n := c.toNat
  if n < 128 then [n]
  else if n < 2048 then [192 + n / 64, 128 + n % 64]
  else if n < 65536 then [224 + n / 4096, 128 + n / 64 % 64, 128 + n % 64]
  else [240 + n / 262144, 128 + n / 4096 % 64, 128 + n / 64 % 64, 128 + n % 64]

/-- The UTF-8 bytes of a string. -/
def strBytes (s : String) : List Nat := (s.data.map utf8Bytes).flatten

/-- The sixteen lowercase hexadecimal digit characters, as emitted by node's
`digest("hex")`. -/
def lowerHexDigits : List Char := "0123456789abcdef".data

/-- Two lowercase hex characters for one byte. -/
def hexByte (b : Nat) : List Char :=
  [lowerHexDigits.getD (b / 16) '0', lowerHexDigits.getD (b % 16) '0']

/-- Lowercase hexadecimal rendering of a byte list (node `digest("hex")`). -/
def hexEncode (bytes : List Nat) : String := ⟨(bytes.map hexByte).flatten⟩

/-- `true` iff every character of `s` is a lowercase hexadecimal digit. -/
def isLowerHexString (s : String) : Bool :=
  s.data.all (fun c => decide (c ∈ lowerHexDigits))

/-- The ten decimal digit characters, by value. -/
def digitChar10 : Nat → Char
  | 0 => '0' | 1 => '1' | 2 => '2' | 3 => '3' | 4 => '4'
  | 5 => '5' | 6 => '6' | 7 => '7' | 8 => '8' | 9 => '9'
  | _ => 'X'

/-- Decimal digits of `n`, most significant first.  The first argument is
fuel; `n + 1` steps always suffice. -/
def decDigitsAux : Nat → Nat → List Nat
  | 0, _ => []
  | fuel + 1, n => if n < 10 then [n] else decDigitsAux fuel (n / 10) ++ [n % 10]

/-- The decimal string of a natural number, as ECMAScript renders an integral
`Number` inside a template literal (`${timestamp}`). -/
def natToString (n : Nat) : String := ⟨(decDigitsAux (n + 1) n).map digitChar10⟩

/-! ### SHA-256 (FIPS 180-4), over byte lists -/

namespace Sha256

/-- Addition modulo `2^32`. -/
def add32 (a b : Nat) : Nat := (a + b) % 4294967296

/-- Rotate the low 32 bits of `x` right by `n` places. -/
def rotr (n x : Nat) : Nat := ((x >>> n) ||| (x <<< (32 - n))) % 4294967296

def ch (x y z : Nat) : Nat := (x &&& y) ^^^ ((x ^^^ 4294967295) &&& z)

def maj (x y z : Nat) : Nat := (x &&& y) ^^^ (x &&& z) ^^^ (y &&& z)

def bigSigma0 (x : Nat) : Nat := rotr 2 x ^^^ rotr 13 x ^^^ rotr 22 x

def bigSigma1 (x : Nat) : Nat := rotr 6 x ^^^ rotr 11 x ^^^ rotr 25 x

def smallSigma0 (x : Nat) : Nat := rotr 7 x ^^^ rotr 18 x ^^^ (x >>> 3)

def smallSigma1 (x : Nat) : Nat := rotr 17 x ^^^ rotr 19 x ^^^ (x >>> 10)

/-- The eight working/hash variables. -/
structure Hash8 where
  a : Nat
  b : Nat
  c : Nat
  d : Nat
  e : Nat
  f : Nat
  g : Nat
  h : Nat

/-- The starting hash state, `H(0)` of FIPS 180-4 (decimal renderings of the
usual eight constants). -/
def initHash : Hash8 :=
  ⟨1779033703, 3144134277, 1013904242,
   2773480762, 1359893119, 2600822924,
   528734635, 1541459225⟩

/-- The 64 round constants of FIPS 180-4, rendered in decimal. -/
def K : List Nat := [
  1116352408, 1899447441, 3049323471, 3921009573, 961987163,
  1508970993, 2453635748, 2870763221, 3624381080, 310598401,
  607225278, 1426881987, 1925078388, 2162078206, 2614888103,
  3248222580, 3835390401, 4022224774, 264347078, 604807628,
  770255983, 1249150122, 1555081692, 1996064986, 2554220882,
  2821834349, 2952996808, 3210313671, 3336571891, 3584528711,
  113926993, 338241895, 666307205, 773529912, 1294757372,
  1396182291, 1695183700, 1986661051, 2177026350, 2456956037,
  2730485921, 2820302411, 3259730800, 3345764771, 3516065817,
  3600352804, 4094571909, 275423344, 430227734, 506948616,
  659060556, 883997877, 958139571, 1322822218, 1537002063,
  1747873779, 1955562222, 2024104815, 2227730452, 2361852424,
  2428436474, 2756734187, 3204031479, 3329325298
]

/-- Big-endian bytes of a 64-bit length field. -/
def be64 (n : Nat) : List Nat :=
  [(n >>> 56) % 256, (n >>> 48) % 256, (n >>> 40) % 256, (n >>> 32) % 256,
   (n >>> 24) % 256, (n >>> 16) % 256, (n >>> 8) % 256, n % 256]

/-- Merkle–Damgård padding: a `0x80` byte, zeros to 56 mod 64, then the
bit length as 64-bit big-endian. -/
def padMessage (msg : List Nat) : List Nat :=
  msg ++ 128 :: (List.replicate ((120 - (msg.length + 1) % 64) % 64) 0 ++ be64 (msg.length * 8))

/-- The big-endian 32-bit word at byte offset `i`. -/
def word32At (l : List Nat) (i : Nat) : Nat :=
  l.getD i 0 * 16777216 + l.getD (i + 1) 0 * 65536 + l.getD (i + 2) 0 * 256 + l.getD (i + 3) 0

/-- The sixteen message words of one 64-byte block. -/
def blockWords (block : List Nat) : List Nat :=
  (List.range 16).map (fun i => word32At block (4 * i))

/-- Extend sixteen message words to the 64-entry message schedule. -/
def scheduleW (w16 : List Nat) : List Nat :=
  (List.range 48).foldl (fun w i =>
    w ++ [add32 (add32 (w.getD i 0) (smallSigma0 (w.getD (i + 1) 0)))
            (add32 (w.getD (i + 9) 0) (smallSigma1 (w.getD (i + 14) 0)))]) w16

/-- One compression round. -/
def step (st : Hash8) (k w : Nat) : Hash8 :=
  let t1 := add32 (add32 (add32 st.h (bigSigma1 st.e)) (add32 (ch st.e st.f st.g) k)) w
  let t2 := add32 (bigSigma0 st.a) (maj st.a st.b st.c)
  ⟨add32 t1 t2, st.a, st.b, st.c, add32 st.d t1, st.e, st.f, st.g⟩

/-- Compress one 64-byte block into the hash state. -/
def compress (H : Hash8) (block : List Nat) : Hash8 :=
  let w := scheduleW (blockWords block)
  let st := (List.range 64).foldl (fun st i => step st (K.getD i 0) (w.getD i 0)) H
  ⟨add32 H.a st.a, add32 H.b st.b, add32 H.c st.c, add32 H.d st.d,
   add32 H.e st.e, add32 H.f st.f, add32 H.g st.g, add32 H.h st.h⟩

/-- The 32 digest bytes of a final hash state, big-endian per word. -/
def wordBytes (w : Nat) : List Nat :=
  [(w >>> 24) % 256, (w >>> 16) % 256, (w >>> 8) % 256, w % 256]

def hashBytes (H : Hash8) : List Nat :=
  ([H.a, H.b, H.c, H.d, H.e, H.f, H.g, H.h].map wordBytes).flatten

/-- SHA-256 of a byte list. -/
def sha256 (msg : List Nat) : List Nat :=
  let p := padMessage msg
  hashBytes ((List.range (p.length / 64)).foldl
    (fun H i => compress H ((p.drop (64 * i)).take 64)) initHash)

end Sha256

/-- HMAC-SHA256 (RFC 2104) of `msg` keyed by `key`, both byte lists;
node's `createHmac("sha256", key)` with block size 64. -/
def hmacSha256 (key msg : List Nat) : List Nat :=
  let k0 := if 64 < key.length then Sha256.sha256 key else key
  let kp := k0 ++ List.replicate (64 - k0.length) 0
  Sha256.sha256 ((kp.map (fun b => b ^^^ 92)) ++
    Sha256.sha256 ((kp.map (fun b => b ^^^ 54)) ++ msg))

/-! ### The client: signer and header attachment (src/index.ts, current revision) -/

/-- ECMAScript `String.prototype.toUpperCase` on the ASCII method names the
client passes (`"get"`, `"post"`, …). -/
def jsToUpperCase (s : String) : String := ⟨s.data.map Char.toUpper⟩

/-- The client instance: the credential pair fixed at construction
(`this.apiKey`, `this.apiSecret`). -/
structure ObiexClient where
  apiKey : String
  apiSecret : String

/-- The ephemeral signed-request descriptor returned by `sign`. -/
structure SignPair where
  timestamp : Nat
  signature : String
  deriving DecidableEq

namespace ObiexClient

/-- The signing payload of `ObiexClient.sign`:
`` `${method.toUpperCase()}${originalUrl}${timestamp}` ``. -/
def signContent (method originalUrl : String) (timestamp : Nat) : String :=
  jsToUpperCase method ++ originalUrl ++ natToString timestamp

/-- `ObiexClient.sign` (src/index.ts lines 41-54): the captured `Date.now()`
is the explicit `now` argument; the signature is the lowercase hex
HMAC-SHA256 of the payload keyed by `this.apiSecret`. -/
def sign (c : ObiexClient) (method originalUrl : String) (now : Nat) : SignPair :=
  { timestamp := now
    signature := hexEncode (hmacSha256 (strBytes c.apiSecret)
      (strBytes (signContent method originalUrl now))) }

/-- The mutable pieces of an axios request the interceptor touches. -/
structure AxiosRequestConfig where
  method : String
  url : String
  headers : List (String × String)

/-- JavaScript property assignment `headers[name] = value` on an object:
an existing key keeps its position and gets the new value, a new key is
appended. -/
def setHeader : List (String × String) → String → String → List (String × String)
  | [], name, value => [(name, value)]
  | p :: rest, name, value =>
    if p.1 == name then (name, value) :: rest else p :: setHeader rest name value

/-- Reading `headers[name]`. -/
def getHeader (headers : List (String × String)) (name : String) : Option String :=
  (headers.find? (fun p => p.1 == name)).map (fun p => p.2)

/-- `ObiexClient.requestConfig` (src/index.ts lines 27-39): sign the request
method and url and attach the four headers.  The numeric timestamp header is
serialized in decimal on the wire. -/
def requestConfig (c : ObiexClient) (cfg : AxiosRequestConfig) (now : Nat) :
    AxiosRequestConfig :=
  let s := c.sign cfg.method cfg.url now
  let h1 := setHeader cfg.headers "Content-Type" "application/json"
  let h2 := setHeader h1 "x-api-timestamp" (natToString s.timestamp)
  let h3 := setHeader h2 "x-api-signature" s.signature
  let h4 := setHeader h3 "x-api-key" c.apiKey
  { cfg with headers := h4 }

end ObiexClient

/-! ### Endpoint lookups (src/index.ts, current revision) -/

/-- A currency record; the lookups read only `id` and `code`. -/
structure Currency where
  id : String
  code : String
  deriving DecidableEq

/-- A trade record; `getTradeById` reads only `id`. -/
structure Trade where
  id : String
  deriving DecidableEq

/-- A JavaScript runtime failure: reading a property of `undefined`. -/
inductive JsError where
  | typeError
  deriving DecidableEq

namespace ObiexClient

/-- `ObiexClient.getCurrencyByCode` (src/index.ts lines 265-269), applied to
the fetched currency list: `currencies.find((x) => x.code === code)`. -/
def getCurrencyByCode (currencies : List Currency) (code : String) : Option Currency :=
  currencies.find? (fun x => x.code == code)

/-- Reading `.id` on a lookup result: JavaScript throws `TypeError` when the
lookup returned `undefined`. -/
def currencyIdOf : Option Currency → Except JsError String
  | some c => Except.ok c.id
  | none => Except.error JsError.typeError

/-- A trade side. -/
inductive Side where
  | BUY
  | SELL
  deriving DecidableEq

/-- The request body `createQuote` posts to `/v1/trades/quote`. -/
structure QuoteRequest where
  sourceId : String
  targetId : String
  side : Side
  amount : Int
  deriving DecidableEq

/-- `ObiexClient.createQuote` (src/index.ts lines 100-117) up to the network
call: resolve both codes against the fetched currency list, then read
`sourceCurrency.id` and `targetCurrency.id` to build the posted body. -/
def createQuote (currencies : List Currency) (source target : String)
    (side : Side) (amount : Int) : Except JsError QuoteRequest := do
  let sourceCurrency := getCurrencyByCode currencies source
  let targetCurrency := getCurrencyByCode currencies target
  let sid ← currencyIdOf sourceCurrency
  let tid ← currencyIdOf targetCurrency
  Except.ok ⟨sid, tid, side, amount⟩

/-- `ObiexClient.getNetworks` (src/index.ts lines 194-202) up to the network
call: resolve the code, read `currency.id`, and form the request url. -/
def getNetworksUrl (currencies : List Currency) (currencyCode : String) :
    Except JsError String := do
  let cid ← currencyIdOf (getCurrencyByCode currencies currencyCode)
  Except.ok ("/v1/currencies/" ++ cid ++ "/networks")

/-- The url `getTradeHistory` requests (src/index.ts lines 245-251). -/
def getTradeHistoryUrl (page pageSize : Nat) : String :=
  "/v1/trades/me?page=" ++ natToString page ++ "&pageSize=" ++ natToString pageSize

/-- Modelled from the spec: the remote `/v1/trades/me` endpoint is not part of
this repository; its documented contract (`@param page // default: 1`,
`@param pageSize // default: 30`) is the standard page slicing of the full
trade history. -/
def tradesPage (allTrades : List Trade) (page pageSize : Nat) : List Trade :=
  (allTrades.drop ((page - 1) * pageSize)).take pageSize

/-- `ObiexClient.getTradeHistory` with explicit arguments; the source defaults
are `page = 1`, `pageSize = 30`. -/
def getTradeHistory (allTrades : List Trade) (page pageSize : Nat) : List Trade :=
  tradesPage allTrades page pageSize

/-- `ObiexClient.getTradeById` (src/index.ts lines 259-263): fetch
`getTradeHistory()` with both defaults and search it:
`trades.find((x) => x.id === tradeId)`. -/
def getTradeById (allTrades : List Trade) (tradeId : String) : Option Trade :=
  (getTradeHistory allTrades 1 30).find? (fun x => x.id == tradeId)

end ObiexClient

/-! ### The TTL cache (imported from "./cache") -/

namespace CacheService

/-- A cache entry: a stored value and its expiry instant (§3 of the spec). -/
structure CacheEntry (V : Type) where
  value : V
  expiresAt : Nat
  deriving DecidableEq

/-- The outcome of one `getOrSet` call: the returned (or propagated) result,
the mapping afterwards, and how many times the producer was invoked. -/
structure GetOrSetOut (E V : Type) where
  result : Except E V
  cache : List (String × CacheEntry V)
  producerCalls : Nat

/-- Entry lookup in the key-to-entry mapping. -/
def lookupEntry (cache : List (String × CacheEntry V)) (key : String) :
    Option (CacheEntry V) :=
  (cache.find? (fun p => p.1 == key)).map (fun p => p.2)

/-- Store an entry under a key, replacing any prior entry. -/
def setEntry : List (String × CacheEntry V) → String → CacheEntry V →
    List (String × CacheEntry V)
  | [], key, e => [(key, e)]
  | p :: rest, key, e =>
    if p.1 == key then (key, e) :: rest else p :: setEntry rest key e

/-- Invoke the producer: on success store `{value, expiresAt = now + ttl}`
under the key and return the value; on failure propagate it and leave the
mapping untouched. -/
def runProducer (cache : List (String × CacheEntry V)) (key : String)
    (producer : Except E V) (ttl now : Nat) : GetOrSetOut E V :=
  match producer with
  | Except.ok v => ⟨Except.ok v, setEntry cache key ⟨v, now + ttl⟩, 1⟩
  | Except.error err => ⟨Except.error err, cache, 1⟩

/-- Modelled from the spec: `CacheService.getOrSet` lives in `src/cache.ts`,
which is imported by `src/index.ts` but absent from the sources; §4.2 of the
spec gives its contract.  Look the key up; a fresh entry (`now < expiresAt`)
is returned without invoking the producer; otherwise the producer runs. -/
def getOrSet (cache : List (String × CacheEntry V)) (key : String)
    (producer : Except E V) (ttl now : Nat) : GetOrSetOut E V :=
  match lookupEntry cache key with
  | some e =>
    if now < e.expiresAt then ⟨Except.ok e.value, cache, 0⟩
    else runProducer cache key producer ttl now
  | none => runProducer cache key producer ttl now

end CacheService

/-- `ObiexClient.getCurrencies` (src/index.ts lines 182-192): the one cached
call — key `"currencies"`, the fetch of `/v1/currencies` as producer, and a
TTL of 86400 seconds. -/
def ObiexClient.getCurrencies (cache : List (String × CacheService.CacheEntry (List Currency)))
    (fetch : Except E (List Currency)) (now : Nat) :
    CacheService.GetOrSetOut E (List Currency) :=
  CacheService.getOrSet cache "currencies" fetch 86400 now

/-! ### The second observed revision: query strings and the `/v1` signing prefix -/

/-- ECMAScript `encodeURIComponent`: unreserved characters pass through,
every other character becomes `%XX` per UTF-8 byte, uppercase hex. -/
def uriUnreserved (c : Char) : Bool :=
  let n := c.toNat
  (65 ≤ n && n ≤ 90) || (97 ≤ n && n ≤ 122) || (48 ≤ n && n ≤ 57) ||
  n == 45 || n == 95 || n == 46 || n == 33 || n == 126 || n == 42 ||
  n == 39 || n == 40 || n == 41

/-- The sixteen uppercase hexadecimal digit characters. -/
def upperHexDigits : List Char := "0123456789ABCDEF".data

/-- `%XX` for one byte. -/
def percentByte (b : Nat) : List Char :=
  ['%', upperHexDigits.getD (b / 16) '0', upperHexDigits.getD (b % 16) '0']

def encodeURIComponent (s : String) : String :=
  ⟨(s.data.map (fun c =>
    if uriUnreserved c then [c] else ((utf8Bytes c).map percentByte).flatten)).flatten⟩

namespace Rev2

/-- A query-parameter value: a plain string or an array of strings. -/
inductive QueryValue where
  | str (s : String)
  | arr (items : List String)

/-- The `valueString` of `stringifyKeyValuePair`: an array value becomes
`` `["${value.join('","')}"]` ``, anything else is used as is. -/
def valueStringOf : QueryValue → String
  | QueryValue.str s => s
  | QueryValue.arr items => "[\"" ++ String.intercalate "\",\"" items ++ "\"]"

/-- `stringifyKeyValuePair` (src/index.ts lines 318-323):
`` `${key}=${encodeURIComponent(valueString)}` ``. -/
def stringifyKeyValuePair (kv : String × QueryValue) : String :=
  kv.1 ++ "=" ++ encodeURIComponent (valueStringOf kv.2)

/-- `buildQueryString` (src/index.ts lines 325-329): absent params give `""`;
otherwise the entries are stringified in their fixed insertion order and
joined with `&`. -/
def buildQueryString : Option (List (String × QueryValue)) → String
  | none => ""
  | some params => String.intercalate "&" (params.map stringifyKeyValuePair)

/-- The signing payload of the second revision's `sign` (src/index.ts lines
353-367): the url is given a leading slash if missing (`url.startsWith("/")`
is whether the first character is a slash), and the `/v1` prefix
carried by this revision's `baseURL` is prepended inside the payload. -/
def signContent (method url : String) (timestamp : Nat) : String :=
  let path := if url.data.head? == some '/' then url else "/" ++ url
  jsToUpperCase method ++ "/v1" ++ path ++ natToString timestamp

/-- The second revision's `sign`. -/
def sign (c : ObiexClient) (method url : String) (now : Nat) : SignPair :=
  { timestamp := now
    signature := hexEncode (hmacSha256 (strBytes c.apiSecret)
      (strBytes (signContent method url now))) }

/-- The mutable pieces of an axios request this revision's interceptor
touches; `params` is the axios query-parameter object. -/
structure Config where
  method : String
  url : String
  params : Option (List (String × QueryValue))
  headers : List (String × String)

/-- The second revision's `requestConfig` (src/index.ts lines 331-351): when
params are present the query string is appended to the url and params are
cleared, and the very url that will be transmitted is then signed. -/
def requestConfig (c : ObiexClient) (cfg : Config) (now : Nat) : Config :=
  let cfg1 :=
    match cfg.params with
    | some ps => { cfg with url := cfg.url ++ "?" ++ buildQueryString (some ps),
                            params := none }
    | none => cfg
  let s := sign c cfg1.method cfg1.url now
  let h1 := ObiexClient.setHeader cfg1.headers "Content-Type" "application/json"
  let h2 := ObiexClient.setHeader h1 "x-api-timestamp" (natToString s.timestamp)
  let h3 := ObiexClient.setHeader h2 "x-api-signature" s.signature
  let h4 := ObiexClient.setHeader h3 "x-api-key" c.apiKey
  { cfg1 with headers := h4 }

end Rev2

/-! ### Helper lemmas: hex output, digest shape, decimal strings -/

theorem getD_mem_or {α : Type} (l : List α) (n : Nat) (d : α) :
    l.getD n d ∈ l ∨ l.getD n d = d := by
  induction l generalizing n with
  | nil => right; cases n <;> rfl
  | cons a t ih =>
    cases n with
    | zero => left; exact List.mem_cons_self a t
    | succ m =>
      rcases ih m with h | h
      · left; exact List.mem_cons_of_mem a h
      · right; exact h

theorem getD_byte_lt {l : List Nat} (hmem : ∀ x ∈ l, x < 256) (n : Nat) :
    l.getD n 0 < 256 := by
  rcases getD_mem_or l n 0 with h | h
  · exact hmem _ h
  · rw [h]; norm_num

theorem hexDigit_mem (n : Nat) : lowerHexDigits.getD n '0' ∈ lowerHexDigits := by
  rcases getD_mem_or lowerHexDigits n '0' with h | h
  · exact h
  · rw [h]; decide

/-- Every character `hexEncode` ever emits is a lowercase hex digit. -/
theorem isLowerHex_hexEncode (bytes : List Nat) :
    isLowerHexString (hexEncode bytes) = true := by
  simp only [isLowerHexString, hexEncode, List.all_eq_true, decide_eq_true_eq]
  intro c hc
  simp only [List.mem_flatten, List.mem_map] at hc
  obtain ⟨l, ⟨b, _, rfl⟩, hcl⟩ := hc
  simp only [hexByte, List.mem_cons, List.not_mem_nil, or_false] at hcl
  rcases hcl with rfl | rfl <;> exact hexDigit_mem _

/-- Digest bytes of a hash state: always 32 of them. -/
theorem hashBytes_length (H : Sha256.Hash8) : (Sha256.hashBytes H).length = 32 := rfl

theorem hashBytes_lt (H : Sha256.Hash8) : ∀ x ∈ Sha256.hashBytes H, x < 256 := by
  intro x hx
  simp only [Sha256.hashBytes, List.mem_flatten, List.mem_map] at hx
  obtain ⟨l, ⟨w, _, rfl⟩, hxl⟩ := hx
  simp only [Sha256.wordBytes, List.mem_cons, List.not_mem_nil, or_false] at hxl
  rcases hxl with rfl | rfl | rfl | rfl <;> exact Nat.mod_lt _ (by norm_num)

theorem sha256_length (msg : List Nat) : (Sha256.sha256 msg).length = 32 := rfl

theorem sha256_lt (msg : List Nat) : ∀ x ∈ Sha256.sha256 msg, x < 256 := by
  intro x hx
  simp only [Sha256.sha256] at hx
  exact hashBytes_lt _ x hx

theorem hmacSha256_length (key msg : List Nat) : (hmacSha256 key msg).length = 32 :=
  sha256_length _

theorem hmacSha256_lt (key msg : List Nat) : ∀ x ∈ hmacSha256 key msg, x < 256 := by
  intro x hx
  simp only [hmacSha256] at hx
  exact sha256_lt _ x hx

/-- Two byte lists of length 32 with the same `getD` reads are equal. -/
theorem list32_eq_of_getD {l1 l2 : List Nat} (h1 : l1.length = 32) (h2 : l2.length = 32)
    (h : ∀ i : Fin 32, l1.getD i 0 = l2.getD i 0) : l1 = l2 := by
  apply List.ext_getElem (h1.trans h2.symm)
  intro n hn1 hn2
  have hlt : n < 32 := by omega
  have := h ⟨n, hlt⟩
  rwa [List.getD_eq_getElem?_getD, List.getD_eq_getElem?_getD,
    List.getElem?_eq_getElem hn1, List.getElem?_eq_getElem hn2] at this

/-- The decimal value of a digit list, most significant first. -/
def decValue (l : List Nat) : Nat := l.foldl (fun acc d => acc * 10 + d) 0

theorem decValue_append (l : List Nat) (d : Nat) :
    decValue (l ++ [d]) = decValue l * 10 + d := by
  simp [decValue, List.foldl_append]

theorem decDigitsAux_decValue : ∀ fuel n : Nat, n < 10 ^ fuel →
    decValue (decDigitsAux fuel n) = n := by
  intro fuel
  induction fuel with
  | zero =>
    intro n h
    simp only [pow_zero, Nat.lt_one_iff] at h
    subst h; rfl
  | succ f ih =>
    intro n h
    rw [decDigitsAux]
    by_cases h10 : n < 10
    · simp [h10, decValue]
    · rw [if_neg h10, decValue_append, ih (n / 10) ?_]
      · omega
      · rw [Nat.div_lt_iff_lt_mul (by norm_num), ← pow_succ]; exact h

theorem decDigitsAux_lt_ten : ∀ fuel n d : Nat, d ∈ decDigitsAux fuel n → d < 10 := by
  intro fuel
  induction fuel with
  | zero => intro n d h; simp [decDigitsAux] at h
  | succ f ih =>
    intro n d h
    rw [decDigitsAux] at h
    by_cases h10 : n < 10
    · rw [if_pos h10] at h
      simp only [List.mem_singleton] at h
      omega
    · rw [if_neg h10] at h
      rcases List.mem_append.mp h with h' | h'
      · exact ih _ _ h'
      · simp only [List.mem_singleton] at h'
        subst h'
        exact Nat.mod_lt _ (by norm_num)

theorem digitChar10_inj {d1 d2 : Nat} (h1 : d1 < 10) (h2 : d2 < 10)
    (h : digitChar10 d1 = digitChar10 d2) : d1 = d2 := by
  interval_cases d1 <;> interval_cases d2 <;> revert h <;> decide

theorem map_digitChar10_inj : ∀ l1 l2 : List Nat,
    (∀ d ∈ l1, d < 10) → (∀ d ∈ l2, d < 10) →
    l1.map digitChar10 = l2.map digitChar10 → l1 = l2 := by
  intro l1
  induction l1 with
  | nil =>
    intro l2 _ _ h
    cases l2 with
    | nil => rfl
    | cons b t2 => simp at h
  | cons a t ih =>
    intro l2 hb1 hb2 h
    cases l2 with
    | nil => simp at h
    | cons b t2 =>
      simp only [List.map_cons, List.cons.injEq] at h
      have ha := digitChar10_inj (hb1 a (List.mem_cons_self a t))
        (hb2 b (List.mem_cons_self b t2)) h.1
      rw [ha, ih t2 (fun d hd => hb1 d (List.mem_cons_of_mem a hd))
        (fun d hd => hb2 d (List.mem_cons_of_mem b hd)) h.2]

/-- Distinct naturals have distinct decimal strings. -/
theorem natToString_injective : Function.Injective natToString := by
  intro m n h
  have hdata : (decDigitsAux (m + 1) m).map digitChar10 =
      (decDigitsAux (n + 1) n).map digitChar10 := congrArg String.data h
  have hl := map_digitChar10_inj _ _
    (fun d hd => decDigitsAux_lt_ten _ _ _ hd)
    (fun d hd => decDigitsAux_lt_ten _ _ _ hd) hdata
  have hm : m < 10 ^ (m + 1) :=
    lt_of_lt_of_le (Nat.lt_pow_self (by norm_num) m)
      (Nat.pow_le_pow_right (by norm_num) (Nat.le_succ m))
  have hn : n < 10 ^ (n + 1) :=
    lt_of_lt_of_le (Nat.lt_pow_self (by norm_num) n)
      (Nat.pow_le_pow_right (by norm_num) (Nat.le_succ n))
  rw [← decDigitsAux_decValue (m + 1) m hm, ← decDigitsAux_decValue (n + 1) n hn, hl]

theorem string_append_left_cancel {a b c : String} (h : a ++ b = a ++ c) : b = c := by
  have hd := congrArg String.data h
  rw [String.data_append, String.data_append] at hd
  exact String.ext (List.append_cancel_left hd)

set_option maxRecDepth 8000 in
/-- Anchor: the FIPS 180-4 test vector for `"abc"`, checked in the kernel. -/
theorem sha256_fips_vector_abc :
    hexEncode (Sha256.sha256 (strBytes "abc")) =
    "ba7816bf8f01cfea414140de5dae2223b00361a396177a9cb410ff61f20015ad" := by decide

set_option maxRecDepth 20000 in
/-- Anchor: RFC 4231 test case 2 for HMAC-SHA256, checked in the kernel. -/
theorem hmacSha256_rfc4231_case2 :
    hexEncode (hmacSha256 (strBytes "Jefe") (strBytes "what do ya want for nothing?")) =
    "5bdcc146bf60754e6a042426089575c75a003f089d2739839dec58b964ec3843" := by decide

/-! ### Claim theorems: the signer -/

set_option maxRecDepth 20000 in
/-- C1: for every method, path, secret and captured timestamp, `sign` hashes
the payload obtained by concatenating, with no separators, the upper-cased
method, the request path and the decimal timestamp, and returns its lowercase
hex HMAC-SHA256 keyed by the secret; signing `GET /v1/trades/pairs` at
`1700000000000` with secret `"s3cr3t"` hashes exactly the string
`"GET/v1/trades/pairs1700000000000"`. -/
theorem sign_builds_uppercase_path_timestamp_payload
    (c : ObiexClient) (method originalUrl : String) (now : Nat) :
    (c.sign method originalUrl now).timestamp = now ∧
    (c.sign method originalUrl now).signature =
      hexEncode (hmacSha256 (strBytes c.apiSecret)
        (strBytes (jsToUpperCase method ++ originalUrl ++ natToString now))) ∧
    isLowerHexString (c.sign method originalUrl now).signature = true ∧
    ObiexClient.signContent "GET" "/v1/trades/pairs" 1700000000000 =
      "GET/v1/trades/pairs1700000000000" ∧
    (ObiexClient.sign ⟨"key", "s3cr3t"⟩ "GET" "/v1/trades/pairs" 1700000000000).signature =
      hexEncode (hmacSha256 (strBytes "s3cr3t") (strBytes "GET/v1/trades/pairs1700000000000")) ∧
    (ObiexClient.sign ⟨"key", "s3cr3t"⟩ "GET" "/v1/trades/pairs" 1700000000000).signature =
      "e0e9b376e85cfc6bd679a4a19228ec10297ddbbb06056126b3c3dd336f0789b0" ∧
    Rev2.signContent "GET" "/trades/pairs" 1700000000000 =
      "GET/v1/trades/pairs1700000000000" :=
  ⟨rfl, rfl, isLowerHex_hexEncode _, by decide, by decide, by decide, by decide⟩

/-- C9, counterexample: it is not true that every pair of distinct timestamps
yields distinct signatures for a fixed request and secret — the signatures
live in the finite set of 32-byte digests while the timestamps are unbounded,
so by pigeonhole some two distinct timestamps collide. -/
theorem sign_distinct_timestamps_distinct_signatures_false :
    ¬ (∀ t1 t2 : Nat, t1 ≠ t2 →
      (ObiexClient.sign ⟨"key", "s3cr3t"⟩ "GET" "/v1/trades/pairs" t1).signature ≠
      (ObiexClient.sign ⟨"key", "s3cr3t"⟩ "GET" "/v1/trades/pairs" t2).signature) := by
  intro hall
  have hinj : Function.Injective (fun t : Nat => hmacSha256 (strBytes "s3cr3t")
      (strBytes (ObiexClient.signContent "GET" "/v1/trades/pairs" t))) := by
    intro t1 t2 heq
    by_contra hne
    exact hall t1 t2 hne (congrArg hexEncode heq)
  have hFinj : Function.Injective (fun t : Nat => fun i : Fin 32 =>
      (⟨(hmacSha256 (strBytes "s3cr3t")
          (strBytes (ObiexClient.signContent "GET" "/v1/trades/pairs" t))).getD i 0,
        getD_byte_lt (hmacSha256_lt _ _) _⟩ : Fin 256)) := by
    intro t1 t2 hF
    apply hinj
    apply list32_eq_of_getD (hmacSha256_length _ _) (hmacSha256_length _ _)
    intro i
    have hi := congrFun hF i
    simpa using congrArg Fin.val hi
  haveI : Finite Nat := Finite.of_injective _ hFinj
  exact not_finite Nat

/-- C9, amended: two calls to `sign` on the same request at different
timestamps produce different signing payloads (distinctness of the hex
signatures themselves only holds up to HMAC-SHA256 collisions, and fails
in general by pigeonhole). -/
theorem sign_distinct_timestamps_distinct_payloads
    (method originalUrl : String) {t1 t2 : Nat} (h : t1 ≠ t2) :
    ObiexClient.signContent method originalUrl t1 ≠
    ObiexClient.signContent method originalUrl t2 := by
  intro heq
  apply h
  apply natToString_injective
  exact string_append_left_cancel (a := jsToUpperCase method ++ originalUrl) heq

theorem sign_distinct_timestamps_distinct_payloads_witness :
    ObiexClient.signContent "GET" "/v1/trades/pairs" 1700000000000 ≠
    ObiexClient.signContent "GET" "/v1/trades/pairs" 1700000000001 :=
  sign_distinct_timestamps_distinct_payloads "GET" "/v1/trades/pairs" (by decide)

/-! ### Claim theorems: header attachment and query serialization -/

theorem getHeader_setHeader_self (hs : List (String × String)) (name value : String) :
    ObiexClient.getHeader (ObiexClient.setHeader hs name value) name = some value := by
  induction hs with
  | nil => simp [ObiexClient.setHeader, ObiexClient.getHeader]
  | cons p t ih =>
    by_cases h : p.1 == name
    · simp [ObiexClient.setHeader, h, ObiexClient.getHeader]
    · simp only [Bool.not_eq_true] at h
      simp only [ObiexClient.setHeader, h, Bool.false_eq_true, if_false]
      simp only [ObiexClient.getHeader, List.find?_cons, h] at ih ⊢
      exact ih

theorem getHeader_setHeader_other (hs : List (String × String)) (name value other : String)
    (hne : other ≠ name) :
    ObiexClient.getHeader (ObiexClient.setHeader hs name value) other =
    ObiexClient.getHeader hs other := by
  have hno : (name == other) = false := by
    simp only [beq_eq_false_iff_ne, ne_eq]
    exact fun hh => hne hh.symm
  induction hs with
  | nil =>
    simp [ObiexClient.setHeader, ObiexClient.getHeader, List.find?_cons, hno]
  | cons p t ih =>
    by_cases h : p.1 == name
    · have hp : p.1 = name := by simpa [beq_iff_eq] using h
      have h2 : (p.1 == other) = false := by rw [hp]; exact hno
      simp only [ObiexClient.setHeader, h, if_true]
      simp [ObiexClient.getHeader, List.find?_cons, hno, h2]
    · simp only [Bool.not_eq_true] at h
      simp only [ObiexClient.setHeader, h, Bool.false_eq_true, if_false]
      by_cases hpo : p.1 == other
      · simp [ObiexClient.getHeader, List.find?_cons, hpo]
      · simp only [Bool.not_eq_true] at hpo
        simp only [ObiexClient.getHeader, List.find?_cons, hpo, Bool.false_eq_true, if_false] at ih ⊢
        exact ih

/-- C8: before transmission every request has attached exactly the four
headers `Content-Type: application/json`, `x-api-key` (the key verbatim),
`x-api-timestamp` (the decimal timestamp produced by `sign`) and
`x-api-signature` (the signature produced by `sign` for this request's
method and path); every other header is left untouched. -/
theorem requestConfig_attaches_exact_headers
    (c : ObiexClient) (cfg : ObiexClient.AxiosRequestConfig) (now : Nat) :
    ObiexClient.getHeader (c.requestConfig cfg now).headers "Content-Type" =
      some "application/json" ∧
    ObiexClient.getHeader (c.requestConfig cfg now).headers "x-api-key" =
      some c.apiKey ∧
    ObiexClient.getHeader (c.requestConfig cfg now).headers "x-api-timestamp" =
      some (natToString (c.sign cfg.method cfg.url now).timestamp) ∧
    ObiexClient.getHeader (c.requestConfig cfg now).headers "x-api-signature" =
      some (c.sign cfg.method cfg.url now).signature ∧
    (c.requestConfig cfg now).method = cfg.method ∧
    (c.requestConfig cfg now).url = cfg.url ∧
    (∀ name : String, name ≠ "Content-Type" → name ≠ "x-api-timestamp" →
      name ≠ "x-api-signature" → name ≠ "x-api-key" →
      ObiexClient.getHeader (c.requestConfig cfg now).headers name =
        ObiexClient.getHeader cfg.headers name) := by
  refine ⟨?_, ?_, ?_, ?_, rfl, rfl, ?_⟩
  · show ObiexClient.getHeader (ObiexClient.setHeader (ObiexClient.setHeader
      (ObiexClient.setHeader (ObiexClient.setHeader cfg.headers
      "Content-Type" "application/json")
      "x-api-timestamp" (natToString (c.sign cfg.method cfg.url now).timestamp))
      "x-api-signature" (c.sign cfg.method cfg.url now).signature)
      "x-api-key" c.apiKey) "Content-Type" = some "application/json"
    rw [getHeader_setHeader_other _ _ _ _ (by decide),
      getHeader_setHeader_other _ _ _ _ (by decide),
      getHeader_setHeader_other _ _ _ _ (by decide),
      getHeader_setHeader_self]
  · exact getHeader_setHeader_self _ _ _
  · show ObiexClient.getHeader (ObiexClient.setHeader (ObiexClient.setHeader
      (ObiexClient.setHeader (ObiexClient.setHeader cfg.headers
      "Content-Type" "application/json")
      "x-api-timestamp" (natToString (c.sign cfg.method cfg.url now).timestamp))
      "x-api-signature" (c.sign cfg.method cfg.url now).signature)
      "x-api-key" c.apiKey) "x-api-timestamp" =
      some (natToString (c.sign cfg.method cfg.url now).timestamp)
    rw [getHeader_setHeader_other _ _ _ _ (by decide),
      getHeader_setHeader_other _ _ _ _ (by decide),
      getHeader_setHeader_self]
  · show ObiexClient.getHeader (ObiexClient.setHeader (ObiexClient.setHeader
      (ObiexClient.setHeader (ObiexClient.setHeader cfg.headers
      "Content-Type" "application/json")
      "x-api-timestamp" (natToString (c.sign cfg.method cfg.url now).timestamp))
      "x-api-signature" (c.sign cfg.method cfg.url now).signature)
      "x-api-key" c.apiKey) "x-api-signature" =
      some (c.sign cfg.method cfg.url now).signature
    rw [getHeader_setHeader_other _ _ _ _ (by decide),
      getHeader_setHeader_self]
  · intro name h1 h2 h3 h4
    show ObiexClient.getHeader (ObiexClient.setHeader (ObiexClient.setHeader
      (ObiexClient.setHeader (ObiexClient.setHeader cfg.headers
      "Content-Type" "application/json")
      "x-api-timestamp" (natToString (c.sign cfg.method cfg.url now).timestamp))
      "x-api-signature" (c.sign cfg.method cfg.url now).signature)
      "x-api-key" c.apiKey) name = ObiexClient.getHeader cfg.headers name
    rw [getHeader_setHeader_other _ _ _ _ h4,
      getHeader_setHeader_other _ _ _ _ h3,
      getHeader_setHeader_other _ _ _ _ h2,
      getHeader_setHeader_other _ _ _ _ h1]

theorem requestConfig_attaches_exact_headers_witness :
    ObiexClient.getHeader
      (ObiexClient.requestConfig ⟨"my-key", "s3cr3t"⟩
        ⟨"get", "/v1/trades/pairs", [("User-Agent", "axios")]⟩ 1700000000000).headers
      "x-api-key" = some "my-key" ∧
    ("User-Agent" : String) ≠ "Content-Type" ∧
    ObiexClient.getHeader
      (ObiexClient.requestConfig ⟨"my-key", "s3cr3t"⟩
        ⟨"get", "/v1/trades/pairs", [("User-Agent", "axios")]⟩ 1700000000000).headers
      "User-Agent" = some "axios" :=
  ⟨(requestConfig_attaches_exact_headers ⟨"my-key", "s3cr3t"⟩
      ⟨"get", "/v1/trades/pairs", [("User-Agent", "axios")]⟩ 1700000000000).2.1,
   by decide,
   ((requestConfig_attaches_exact_headers ⟨"my-key", "s3cr3t"⟩
      ⟨"get", "/v1/trades/pairs", [("User-Agent", "axios")]⟩ 1700000000000).2.2.2.2.2.2
      "User-Agent" (by decide) (by decide) (by decide) (by decide)).trans rfl⟩

/-- C2: in the revision that builds query strings, the path that is signed is
byte-for-byte the path that is transmitted: when params are present the query
string — entries in their fixed insertion order, arrays as a bracketed,
comma-joined, double-quoted list run through `encodeURIComponent` — is
appended to the url, params are cleared, and the signature header is computed
from exactly the resulting transmitted method and url. -/
theorem rev2_signed_path_equals_transmitted_path
    (c : ObiexClient) (cfg : Rev2.Config) (ps : List (String × Rev2.QueryValue)) (now : Nat)
    (hps : cfg.params = some ps) :
    (Rev2.requestConfig c cfg now).url =
      cfg.url ++ "?" ++ Rev2.buildQueryString (some ps) ∧
    (Rev2.requestConfig c cfg now).params = none ∧
    ObiexClient.getHeader (Rev2.requestConfig c cfg now).headers "x-api-signature" =
      some (Rev2.sign c (Rev2.requestConfig c cfg now).method
        (Rev2.requestConfig c cfg now).url now).signature ∧
    (Rev2.requestConfig c cfg now).method = cfg.method ∧
    Rev2.buildQueryString (some ps) =
      String.intercalate "&" (ps.map Rev2.stringifyKeyValuePair) ∧
    (∀ (key : String) (items : List String),
      Rev2.stringifyKeyValuePair (key, Rev2.QueryValue.arr items) =
        key ++ "=" ++ encodeURIComponent ("[\"" ++ String.intercalate "\",\"" items ++ "\"]")) ∧
    Rev2.stringifyKeyValuePair ("symbols", Rev2.QueryValue.arr ["BTCUSDT", "BNBBTC"]) =
      "symbols=" ++ encodeURIComponent "[\"BTCUSDT\",\"BNBBTC\"]" ∧
    encodeURIComponent "[\"BTCUSDT\",\"BNBBTC\"]" = "%5B%22BTCUSDT%22%2C%22BNBBTC%22%5D" := by
  have hcfg : Rev2.requestConfig c cfg now =
      { method := cfg.method,
        url := cfg.url ++ "?" ++ Rev2.buildQueryString (some ps),
        params := none,
        headers :=
          ObiexClient.setHeader (ObiexClient.setHeader (ObiexClient.setHeader
            (ObiexClient.setHeader cfg.headers "Content-Type" "application/json")
            "x-api-timestamp"
            (natToString (Rev2.sign c cfg.method
              (cfg.url ++ "?" ++ Rev2.buildQueryString (some ps)) now).timestamp))
            "x-api-signature"
            (Rev2.sign c cfg.method
              (cfg.url ++ "?" ++ Rev2.buildQueryString (some ps)) now).signature)
            "x-api-key" c.apiKey } := by
    rw [Rev2.requestConfig, hps]
  refine ⟨?_, ?_, ?_, ?_, rfl, fun key items => rfl, rfl, by decide⟩
  · rw [hcfg]
  · rw [hcfg]
  · rw [hcfg]
    rw [getHeader_setHeader_other _ _ _ _ (by decide), getHeader_setHeader_self]
  · rw [hcfg]

theorem rev2_signed_path_equals_transmitted_path_witness :
    ((⟨"get", "/trades/pairs",
        some [("symbols", Rev2.QueryValue.arr ["BTCUSDT", "BNBBTC"])], []⟩ : Rev2.Config).params =
      some [("symbols", Rev2.QueryValue.arr ["BTCUSDT", "BNBBTC"])]) ∧
    (Rev2.requestConfig ⟨"my-key", "s3cr3t"⟩
      ⟨"get", "/trades/pairs",
        some [("symbols", Rev2.QueryValue.arr ["BTCUSDT", "BNBBTC"])], []⟩ 1700000000000).url =
      "/trades/pairs" ++ "?" ++
        Rev2.buildQueryString (some [("symbols", Rev2.QueryValue.arr ["BTCUSDT", "BNBBTC"])]) :=
  ⟨rfl,
   (rev2_signed_path_equals_transmitted_path ⟨"my-key", "s3cr3t"⟩
      ⟨"get", "/trades/pairs",
        some [("symbols", Rev2.QueryValue.arr ["BTCUSDT", "BNBBTC"])], []⟩
      [("symbols", Rev2.QueryValue.arr ["BTCUSDT", "BNBBTC"])] 1700000000000 rfl).1⟩

/-! ### Claim theorems: lookups -/

/-- C6: a lookup against a previously fetched collection that finds no match —
`getCurrencyByCode` for an absent code, `getTradeById` for an absent id —
returns the explicit absent result `none` rather than raising an error; in
particular `"DOGE"` against a set containing only BTC and NGNX. -/
theorem lookup_miss_returns_none :
    (∀ (currencies : List Currency) (code : String),
      (∀ x ∈ currencies, x.code ≠ code) →
      ObiexClient.getCurrencyByCode currencies code = none) ∧
    (∀ (allTrades : List Trade) (tradeId : String),
      (∀ x ∈ ObiexClient.getTradeHistory allTrades 1 30, x.id ≠ tradeId) →
      ObiexClient.getTradeById allTrades tradeId = none) ∧
    ObiexClient.getCurrencyByCode [⟨"id-1", "BTC"⟩, ⟨"id-2", "NGNX"⟩] "DOGE" = none := by
  refine ⟨?_, ?_, by decide⟩
  · intro currencies code h
    rw [ObiexClient.getCurrencyByCode, List.find?_eq_none]
    intro x hx
    simp [h x hx]
  · intro allTrades tradeId h
    rw [ObiexClient.getTradeById, List.find?_eq_none]
    intro x hx
    simp [h x hx]

theorem lookup_miss_returns_none_witness :
    (∀ x ∈ [(⟨"id-1", "BTC"⟩ : Currency), ⟨"id-2", "NGNX"⟩], x.code ≠ "DOGE") ∧
    ObiexClient.getCurrencyByCode [⟨"id-1", "BTC"⟩, ⟨"id-2", "NGNX"⟩] "DOGE" = none ∧
    ObiexClient.getTradeById [(⟨"t1"⟩ : Trade), ⟨"t2"⟩] "t3" = none :=
  ⟨by decide,
   lookup_miss_returns_none.1 [⟨"id-1", "BTC"⟩, ⟨"id-2", "NGNX"⟩] "DOGE" (by decide),
   lookup_miss_returns_none.2.1 [⟨"t1"⟩, ⟨"t2"⟩] "t3" (by decide)⟩

/-- C7: the soft-miss behaviour of `getCurrencyByCode` does not extend to its
internal callers: on a source code with no match in the fetched currency
list, `createQuote` (and likewise `getNetworks`) reads `.id` of the absent
lookup result and throws `TypeError` instead of returning an absent result. -/
theorem createQuote_and_getNetworks_throw_on_unknown_code :
    ObiexClient.createQuote [⟨"id-1", "BTC"⟩, ⟨"id-2", "NGNX"⟩] "DOGE" "BTC"
      ObiexClient.Side.BUY 1 = Except.error JsError.typeError ∧
    ObiexClient.getNetworksUrl [⟨"id-1", "BTC"⟩, ⟨"id-2", "NGNX"⟩] "DOGE" =
      Except.error JsError.typeError ∧
    (∀ (currencies : List Currency) (source target : String)
        (side : ObiexClient.Side) (amount : Int),
      ObiexClient.getCurrencyByCode currencies source = none →
      ObiexClient.createQuote currencies source target side amount =
        Except.error JsError.typeError) ∧
    (∀ (currencies : List Currency) (currencyCode : String),
      ObiexClient.getCurrencyByCode currencies currencyCode = none →
      ObiexClient.getNetworksUrl currencies currencyCode =
        Except.error JsError.typeError) := by
  refine ⟨rfl, rfl, ?_, ?_⟩
  · intro currencies source target side amount h
    simp only [ObiexClient.createQuote, h, ObiexClient.currencyIdOf]
    rfl
  · intro currencies currencyCode h
    simp only [ObiexClient.getNetworksUrl, h, ObiexClient.currencyIdOf]
    rfl

theorem createQuote_and_getNetworks_throw_on_unknown_code_witness :
    ObiexClient.getCurrencyByCode [⟨"id-1", "BTC"⟩] "DOGE" = none ∧
    ObiexClient.createQuote [⟨"id-1", "BTC"⟩] "DOGE" "BTC" ObiexClient.Side.SELL 5 =
      Except.error JsError.typeError ∧
    ObiexClient.getNetworksUrl [⟨"id-1", "BTC"⟩] "DOGE" = Except.error JsError.typeError :=
  ⟨by decide,
   createQuote_and_getNetworks_throw_on_unknown_code.2.2.1 [⟨"id-1", "BTC"⟩]
     "DOGE" "BTC" ObiexClient.Side.SELL 5 (by decide),
   createQuote_and_getNetworks_throw_on_unknown_code.2.2.2 [⟨"id-1", "BTC"⟩]
     "DOGE" (by decide)⟩

/-- C10: `getTradeById` searches only the first default page of trade
history — it requests `page=1&pageSize=30` with no category filter, receives
only the first 30 records, and returns the absent result for a trade whose
record lies beyond those 30 entries even when the trade exists in the full
history. -/
theorem getTradeById_searches_only_first_default_page :
    ObiexClient.getTradeHistoryUrl 1 30 = "/v1/trades/me?page=1&pageSize=30" ∧
    (∀ allTrades : List Trade,
      ObiexClient.getTradeHistory allTrades 1 30 = allTrades.take 30) ∧
    (∀ (allTrades : List Trade) (tradeId : String),
      (∃ x ∈ allTrades, x.id = tradeId) →
      (∀ x ∈ allTrades.take 30, x.id ≠ tradeId) →
      ObiexClient.getTradeById allTrades tradeId = none) := by
  refine ⟨by decide, fun allTrades => ?_, ?_⟩
  · rw [ObiexClient.getTradeHistory, ObiexClient.tradesPage]
    norm_num
  · intro allTrades tradeId _ h
    rw [ObiexClient.getTradeById, List.find?_eq_none]
    intro x hx
    rw [ObiexClient.getTradeHistory, ObiexClient.tradesPage] at hx
    norm_num at hx
    simp [h x hx]

theorem getTradeById_searches_only_first_default_page_witness :
    (∃ x ∈ List.replicate 30 (⟨"filler"⟩ : Trade) ++ [(⟨"wanted"⟩ : Trade)], x.id = "wanted") ∧
    (∀ x ∈ (List.replicate 30 (⟨"filler"⟩ : Trade) ++ [(⟨"wanted"⟩ : Trade)]).take 30,
      x.id ≠ "wanted") ∧
    ObiexClient.getTradeById
      (List.replicate 30 (⟨"filler"⟩ : Trade) ++ [(⟨"wanted"⟩ : Trade)]) "wanted" = none :=
  ⟨by decide, by decide,
   getTradeById_searches_only_first_default_page.2.2
     (List.replicate 30 (⟨"filler"⟩ : Trade) ++ [(⟨"wanted"⟩ : Trade)]) "wanted" (by decide) (by decide)⟩

/-! ### Claim theorems: the TTL cache -/

theorem lookupEntry_setEntry_self {V : Type} (cache : List (String × CacheService.CacheEntry V))
    (key : String) (e : CacheService.CacheEntry V) :
    CacheService.lookupEntry (CacheService.setEntry cache key e) key = some e := by
  induction cache with
  | nil => simp [CacheService.setEntry, CacheService.lookupEntry]
  | cons p t ih =>
    by_cases h : p.1 == key
    · simp [CacheService.setEntry, h, CacheService.lookupEntry]
    · simp only [Bool.not_eq_true] at h
      simp only [CacheService.setEntry, h, Bool.false_eq_true, if_false]
      simp only [CacheService.lookupEntry, List.find?_cons, h] at ih ⊢
      exact ih

/-- C3: two `getOrSet` calls in immediate succession on the same key — the
second while `now < expiresAt` of the entry the first wrote — invoke the
producer exactly once between them, and the second call returns the value the
first call stored, whatever producer the second call carries. -/
theorem getOrSet_second_call_hits_cache (V E : Type)
    (cache : List (String × CacheService.CacheEntry V)) (key : String) (v : V)
    (producer2 : Except E V) (ttl now1 now2 : Nat)
    (hmiss : CacheService.lookupEntry cache key = none)
    (hfresh : now2 < now1 + ttl) :
    (CacheService.getOrSet cache key (Except.ok v : Except E V) ttl now1).producerCalls +
      (CacheService.getOrSet
        (CacheService.getOrSet cache key (Except.ok v : Except E V) ttl now1).cache
        key producer2 ttl now2).producerCalls = 1 ∧
    (CacheService.getOrSet cache key (Except.ok v : Except E V) ttl now1).result =
      Except.ok v ∧
    (CacheService.getOrSet
      (CacheService.getOrSet cache key (Except.ok v : Except E V) ttl now1).cache
      key producer2 ttl now2).result = Except.ok v := by
  have h1 : CacheService.getOrSet cache key (Except.ok v : Except E V) ttl now1 =
      ⟨Except.ok v, CacheService.setEntry cache key ⟨v, now1 + ttl⟩, 1⟩ := by
    rw [CacheService.getOrSet, hmiss]
    rfl
  rw [h1]
  have h2 : CacheService.getOrSet (CacheService.setEntry cache key ⟨v, now1 + ttl⟩)
      key producer2 ttl now2 =
      ⟨Except.ok v, CacheService.setEntry cache key ⟨v, now1 + ttl⟩, 0⟩ := by
    rw [CacheService.getOrSet, lookupEntry_setEntry_self]
    simp [hfresh]
  refine ⟨?_, rfl, ?_⟩
  · rw [h2]
    rfl
  · rw [h2]

theorem getOrSet_second_call_hits_cache_witness :
    (CacheService.lookupEntry ([] : List (String × CacheService.CacheEntry Nat))
      "currencies" = none) ∧
    (5 : Nat) < 0 + 86400 ∧
    ((CacheService.getOrSet ([] : List (String × CacheService.CacheEntry Nat))
        "currencies" (Except.ok (ε := Unit) 7) 86400 0).producerCalls +
      (CacheService.getOrSet
        (CacheService.getOrSet ([] : List (String × CacheService.CacheEntry Nat))
          "currencies" (Except.ok (ε := Unit) 7) 86400 0).cache
        "currencies" (Except.ok (ε := Unit) 8) 86400 5).producerCalls = 1 ∧
    (CacheService.getOrSet ([] : List (String × CacheService.CacheEntry Nat))
      "currencies" (Except.ok (ε := Unit) 7) 86400 0).result = Except.ok 7 ∧
    (CacheService.getOrSet
      (CacheService.getOrSet ([] : List (String × CacheService.CacheEntry Nat))
        "currencies" (Except.ok (ε := Unit) 7) 86400 0).cache
      "currencies" (Except.ok (ε := Unit) 8) 86400 5).result = Except.ok 7) :=
  ⟨rfl, by decide,
   getOrSet_second_call_hits_cache Nat Unit [] "currencies" 7 (Except.ok 8) 86400 0 5
     rfl (by decide)⟩

/-- C4: a `getOrSet` call that finds its entry expired (`expiresAt ≤ now`) —
in particular any call after an entry was written with ttl 0 — invokes the
producer again, stores `{value, expiresAt = now + ttl}` under the key
replacing the prior entry, and returns the new value. -/
theorem getOrSet_expired_or_zero_ttl_reinvokes (V E : Type)
    (cacheA cacheB : List (String × CacheService.CacheEntry V)) (key : String)
    (v v2 : V) (e : CacheService.CacheEntry V) (ttl ttl2 now now0 now2 : Nat) :
    (CacheService.lookupEntry cacheA key = some e → e.expiresAt ≤ now →
      (CacheService.getOrSet cacheA key (Except.ok v : Except E V) ttl now).producerCalls = 1 ∧
      (CacheService.getOrSet cacheA key (Except.ok v : Except E V) ttl now).result =
        Except.ok v ∧
      CacheService.lookupEntry
        (CacheService.getOrSet cacheA key (Except.ok v : Except E V) ttl now).cache key =
        some ⟨v, now + ttl⟩) ∧
    (CacheService.lookupEntry cacheB key = none → now0 ≤ now2 →
      (CacheService.getOrSet
        (CacheService.getOrSet cacheB key (Except.ok v : Except E V) 0 now0).cache
        key (Except.ok v2 : Except E V) ttl2 now2).producerCalls = 1 ∧
      (CacheService.getOrSet
        (CacheService.getOrSet cacheB key (Except.ok v : Except E V) 0 now0).cache
        key (Except.ok v2 : Except E V) ttl2 now2).result = Except.ok v2 ∧
      CacheService.lookupEntry
        (CacheService.getOrSet
          (CacheService.getOrSet cacheB key (Except.ok v : Except E V) 0 now0).cache
          key (Except.ok v2 : Except E V) ttl2 now2).cache key = some ⟨v2, now2 + ttl2⟩) := by
  constructor
  · intro hhit hstale
    have h1 : CacheService.getOrSet cacheA key (Except.ok v : Except E V) ttl now =
        ⟨Except.ok v, CacheService.setEntry cacheA key ⟨v, now + ttl⟩, 1⟩ := by
      rw [CacheService.getOrSet, hhit]
      dsimp only
      rw [if_neg (Nat.not_lt.mpr hstale)]
      rfl
    rw [h1]
    exact ⟨rfl, rfl, lookupEntry_setEntry_self _ _ _⟩
  · intro hmiss hle
    have h1 : CacheService.getOrSet cacheB key (Except.ok v : Except E V) 0 now0 =
        ⟨Except.ok v, CacheService.setEntry cacheB key ⟨v, now0 + 0⟩, 1⟩ := by
      rw [CacheService.getOrSet, hmiss]
      rfl
    rw [h1]
    dsimp only
    have h2 : CacheService.getOrSet (CacheService.setEntry cacheB key ⟨v, now0 + 0⟩)
        key (Except.ok v2 : Except E V) ttl2 now2 =
        ⟨Except.ok v2,
         CacheService.setEntry (CacheService.setEntry cacheB key ⟨v, now0 + 0⟩) key
           ⟨v2, now2 + ttl2⟩, 1⟩ := by
      rw [CacheService.getOrSet, lookupEntry_setEntry_self]
      dsimp only
      rw [if_neg (by omega)]
      rfl
    rw [h2]
    exact ⟨rfl, rfl, lookupEntry_setEntry_self _ _ _⟩

theorem getOrSet_expired_or_zero_ttl_reinvokes_witness :
    (CacheService.lookupEntry [("currencies", (⟨3, 10⟩ : CacheService.CacheEntry Nat))]
      "currencies" = some ⟨3, 10⟩) ∧
    (10 : Nat) ≤ 10 ∧
    (CacheService.lookupEntry ([] : List (String × CacheService.CacheEntry Nat))
      "currencies" = none) ∧
    (0 : Nat) ≤ 5 ∧
    ((CacheService.getOrSet [("currencies", (⟨3, 10⟩ : CacheService.CacheEntry Nat))]
        "currencies" (Except.ok (ε := Unit) 7) 86400 10).producerCalls = 1 ∧
      (CacheService.getOrSet [("currencies", (⟨3, 10⟩ : CacheService.CacheEntry Nat))]
        "currencies" (Except.ok (ε := Unit) 7) 86400 10).result = Except.ok 7 ∧
      CacheService.lookupEntry
        (CacheService.getOrSet [("currencies", (⟨3, 10⟩ : CacheService.CacheEntry Nat))]
          "currencies" (Except.ok (ε := Unit) 7) 86400 10).cache "currencies" =
        some ⟨7, 10 + 86400⟩) ∧
    ((CacheService.getOrSet
        (CacheService.getOrSet ([] : List (String × CacheService.CacheEntry Nat))
          "currencies" (Except.ok (ε := Unit) 7) 0 0).cache
        "currencies" (Except.ok (ε := Unit) 9) 86400 5).producerCalls = 1 ∧
      (CacheService.getOrSet
        (CacheService.getOrSet ([] : List (String × CacheService.CacheEntry Nat))
          "currencies" (Except.ok (ε := Unit) 7) 0 0).cache
        "currencies" (Except.ok (ε := Unit) 9) 86400 5).result = Except.ok 9 ∧
      CacheService.lookupEntry
        (CacheService.getOrSet
          (CacheService.getOrSet ([] : List (String × CacheService.CacheEntry Nat))
            "currencies" (Except.ok (ε := Unit) 7) 0 0).cache
          "currencies" (Except.ok (ε := Unit) 9) 86400 5).cache "currencies" =
        some ⟨9, 5 + 86400⟩) :=
  ⟨by decide, by decide, rfl, by decide,
   (getOrSet_expired_or_zero_ttl_reinvokes Nat Unit
      [("currencies", ⟨3, 10⟩)] [] "currencies" 7 9 ⟨3, 10⟩ 86400 86400 10 0 5).1
     (by decide) (by decide),
   (getOrSet_expired_or_zero_ttl_reinvokes Nat Unit
      [("currencies", ⟨3, 10⟩)] [] "currencies" 7 9 ⟨3, 10⟩ 86400 86400 10 0 5).2
     rfl (by decide)⟩

/-- C5: a failing producer propagates its failure unchanged, writes or
updates no cache entry (the mapping is exactly what it was before the call),
and a subsequent `getOrSet` on the same key invokes the producer again. -/
theorem getOrSet_producer_failure_caches_nothing (V E : Type)
    (cache : List (String × CacheService.CacheEntry V)) (key : String)
    (err : E) (producer2 : Except E V) (ttl ttl2 now1 now2 : Nat)
    (hmiss : CacheService.lookupEntry cache key = none) :
    (CacheService.getOrSet cache key (Except.error err : Except E V) ttl now1).result =
      Except.error err ∧
    (CacheService.getOrSet cache key (Except.error err : Except E V) ttl now1).cache =
      cache ∧
    (CacheService.getOrSet cache key (Except.error err : Except E V) ttl now1).producerCalls
      = 1 ∧
    (CacheService.getOrSet
      (CacheService.getOrSet cache key (Except.error err : Except E V) ttl now1).cache
      key producer2 ttl2 now2).producerCalls = 1 := by
  have h1 : CacheService.getOrSet cache key (Except.error err : Except E V) ttl now1 =
      ⟨Except.error err, cache, 1⟩ := by
    rw [CacheService.getOrSet, hmiss]
    rfl
  refine ⟨by rw [h1], by rw [h1], by rw [h1], ?_⟩
  rw [h1]
  dsimp only
  rw [CacheService.getOrSet, hmiss]
  cases producer2 <;> rfl

theorem getOrSet_producer_failure_caches_nothing_witness :
    (CacheService.lookupEntry ([] : List (String × CacheService.CacheEntry Nat))
      "currencies" = none) ∧
    ((CacheService.getOrSet ([] : List (String × CacheService.CacheEntry Nat))
        "currencies" (Except.error (α := Nat) ()) 86400 0).result = Except.error () ∧
      (CacheService.getOrSet ([] : List (String × CacheService.CacheEntry Nat))
        "currencies" (Except.error (α := Nat) ()) 86400 0).cache = [] ∧
      (CacheService.getOrSet ([] : List (String × CacheService.CacheEntry Nat))
        "currencies" (Except.error (α := Nat) ()) 86400 0).producerCalls = 1 ∧
      (CacheService.getOrSet
        (CacheService.getOrSet ([] : List (String × CacheService.CacheEntry Nat))
          "currencies" (Except.error (α := Nat) ()) 86400 0).cache
        "currencies" (Except.ok (ε := Unit) 9) 86400 5).producerCalls = 1) :=
  ⟨rfl,
   getOrSet_producer_failure_caches_nothing Nat Unit [] "currencies" ()
     (Except.ok 9) 86400 86400 0 5 rfl⟩
